import Mathlib

/-!
Verification of the geist privacy-preserving LLM router.

Shallow embedding of the core request-pipeline code:
  * `backend/llm-router/services/hpke_service.py`  (encrypt_chunk,
    decrypt_request, _check_replay_protection)
  * `backend/llm-router/models.py`                 (DecryptedChatPayload)
  * `backend/llm-router/main.py`                   (chat_endpoint, event_stream)
  * `backend/llm-router/middleware/logging_middleware.py` (SanitizedFormatter)
  * `backend/llm-router/services/rate_limiter.py`  (RateLimiter)
  * `backend/router/services/circuit_breaker.py`   (CircuitBreaker)
  * `backend/router/services/health_monitor.py`    (HealthMonitor)

Machine integers are modelled as `Nat`/`Int`, wall-clock times as `Int`
seconds, Python floats that only ever undergo range comparisons as `ℚ`,
byte strings as `List Nat`, and Python dicts as association lists.
-/

namespace Geist

set_option maxRecDepth 40000

instance {ε α : Type} [DecidableEq ε] [DecidableEq α] :
    DecidableEq (Except ε α) := fun a b =>
  match a, b with
  | Except.ok x, Except.ok y => decidable_of_iff (x = y) (by simp)
  | Except.ok _, Except.error _ => isFalse (by simp)
  | Except.error _, Except.ok _ => isFalse (by simp)
  | Except.error e, Except.error f => decidable_of_iff (e = f) (by simp)

/-! ## Byte-level helpers: base64 (Python `base64.b64encode`/`b64decode`)
and UTF-8 encoding (Python `str.encode('utf-8')`). -/

/-- The standard base64 alphabet, `A-Z a-z 0-9 + /`. -/
def b64Alphabet : List Char :=
  "ABCDEFGHIJKLMNOPQRSTUVWXYZabcdefghijklmnopqrstuvwxyz0123456789+/".data

/-- The character the standard base64 alphabet assigns to a 6-bit value. -/
def b64Char (n : Nat) : Char := b64Alphabet.getD n 'A'

/-- Standard base64 encoding of a byte string, with `=` padding
(Python `base64.b64encode`). -/
def b64encode : List Nat → String
  | [] => ""
  | [a] =>
      String.mk [b64Char (a / 4 % 64), b64Char (a % 4 * 16)] ++ "=="
  | [a, b] =>
      String.mk [b64Char (a / 4 % 64), b64Char (a % 4 * 16 + b / 16 % 16),
        b64Char (b % 16 * 4)] ++ "="
  | a :: b :: c :: rest =>
      String.mk [b64Char (a / 4 % 64), b64Char (a % 4 * 16 + b / 16 % 16),
        b64Char (b % 16 * 4 + c / 64 % 4), b64Char (c % 64)] ++ b64encode rest

/-- The 6-bit value of a base64 alphabet character, if any. -/
def b64Val (c : Char) : Option Nat := b64Alphabet.indexOf? c

/-- Base64 decoding of one 4-character group, honouring `=` padding in the
last group (model of the group step of Python `base64.b64decode`). -/
def b64DecodeGroup (c0 c1 c2 c3 : Char) : Option (List Nat) :=
  match b64Val c0, b64Val c1 with
  | some v0, some v1 =>
    if c2 = '=' ∧ c3 = '=' then some [v0 * 4 + v1 / 16]
    else
      match b64Val c2 with
      | some v2 =>
        if c3 = '=' then some [v0 * 4 + v1 / 16, v1 % 16 * 16 + v2 / 4]
        else
          match b64Val c3 with
          | some v3 =>
              some [v0 * 4 + v1 / 16, v1 % 16 * 16 + v2 / 4, v2 % 4 * 64 + v3]
          | none => none
      | none => none
  | _, _ => none

/-- Base64 decoding over the character list: the input must consist of
whole 4-character groups, padding allowed only in the final group. -/
def b64DecodeList : List Char → Option (List Nat)
  | [] => some []
  | c0 :: c1 :: c2 :: c3 :: rest =>
      match b64DecodeGroup c0 c1 c2 c3, b64DecodeList rest with
      | some bs, some more =>
          if (c2 = '=' ∨ c3 = '=') ∧ rest ≠ [] then none else some (bs ++ more)
      | _, _ => none
  | _ => none

/-- Model of Python `base64.b64decode`: `none` models the `binascii.Error`
raised on malformed input. -/
def b64decode (s : String) : Option (List Nat) := b64DecodeList s.data

/-- UTF-8 encoding of a single code point (RFC 3629). -/
def utf8EncodeChar (c : Char) : List Nat :=
  let n := c.toNat
  if n < 0x80 then [n]
  else if n < 0x800 then [0xC0 + n / 64, 0x80 + n % 64]
  else if n < 0x10000 then
    [0xE0 + n / 4096, 0x80 + n / 64 % 64, 0x80 + n % 64]
  else
    [0xF0 + n / 262144, 0x80 + n / 4096 % 64, 0x80 + n / 64 % 64, 0x80 + n % 64]

/-- Model of Python `str.encode('utf-8')` as a byte list. -/
def utf8Encode (s : String) : List Nat := (s.data.map utf8EncodeChar).flatten

/-! ## `HPKEService.encrypt_chunk` (hpke_service.py lines 99-125)

The Python function builds a dict with the four keys
`encapsulated_key`, `ciphertext`, `aad`, `sequence` and returns
`json.dumps` of it.  The dict is modelled as an association list of
JSON values in insertion order; the recipient public key parameter is
kept (as in the source) even though the body never reads it. -/

/-- A JSON value as produced by `encrypt_chunk` (strings and ints only). -/
inductive JVal where
  | jstr (s : String)
  | jnum (n : Nat)
  deriving DecidableEq, Repr

/-- Model of `HPKEService.encrypt_chunk(chunk_data, recipient_public_key,
sequence)`: the JSON object it serializes, field for field.  `chunk_aad` is
`f"chunk-{sequence}".encode('utf-8')`; the ciphertext is the base64 of the
UTF-8 plaintext; the encapsulated key is the base64 of the fixed mock
byte string; the recipient key is never consulted. -/
def encrypt_chunk (chunk_data : String) (recipient_public_key : List Nat)
    (sequence : Nat) : List (String × JVal) :=
  let chunk_aad := utf8Encode ("chunk-" ++ toString sequence)
  let chunk_bytes := utf8Encode chunk_data
  let simulated_ciphertext := b64encode chunk_bytes
  let simulated_enckey := b64encode (utf8Encode "mock_enckey_for_chunk")
  [("encapsulated_key", JVal.jstr simulated_enckey),
   ("ciphertext", JVal.jstr simulated_ciphertext),
   ("aad", JVal.jstr (b64encode chunk_aad)),
   ("sequence", JVal.jnum sequence)]

/-- Escape of one character inside a JSON string literal
(as Python `json.dumps` emits it for the characters we serialize). -/
def jsonEscapeChar (c : Char) : String :=
  if c = '"' then "\\\""
  else if c = '\\' then "\\\\"
  else String.mk [c]

/-- Serialization of one JSON value (model of `json.dumps` output forms). -/
def jdumpVal : JVal → String
  | JVal.jstr s => "\"" ++ String.join (s.data.map jsonEscapeChar) ++ "\""
  | JVal.jnum n => toString n

/-- Serialization of the members of a JSON object, `json.dumps` style
(`", "` between members, `": "` after each key). -/
def jdumpMembers : List (String × JVal) → String
  | [] => ""
  | [(k, v)] => "\"" ++ k ++ "\": " ++ jdumpVal v
  | (k, v) :: rest =>
      "\"" ++ k ++ "\": " ++ jdumpVal v ++ ", " ++ jdumpMembers rest

/-- Model of `json.dumps` on the flat objects `encrypt_chunk` builds. -/
def jdumps (obj : List (String × JVal)) : String :=
  "\x7b" ++ jdumpMembers obj ++ "\x7d"

/-! ## Replay protection and request decryption
(`HPKEService._check_replay_protection`, hpke_service.py lines 142-173, and
`HPKEService.decrypt_request`, lines 71-97; payload schema from models.py
lines 18-26).

Wall-clock instants are `Int` seconds.  The `seen_request_ids` dict is an
association list from request id to the instant it was recorded; entries
are only ever inserted under a not-present guard, so prepending models the
Python dict insert. -/

/-- The `seen_request_ids` replay ledger: request id ↦ instant recorded. -/
def Ledger := List (String × Int)

instance : DecidableEq Ledger := by
  unfold Ledger; exact inferInstance

/-- The fields of `models.ChatRequest` used by the HPKE service
(`timestamp` as `Int` seconds of UTC wall-clock). -/
structure ChatRequest where
  encapsulated_key : String
  ciphertext : String
  aad : String
  timestamp : Int
  request_id : String
  device_pubkey : String
  deriving DecidableEq, Repr

/-- Model of `HPKEService._check_replay_protection` (lines 142-173): reject
if the request is older than `REQUEST_TTL_SECONDS`, more than 30 s in the
future, or its id is already in the ledger; otherwise record the id and
evict ledger entries older than one hour.  Returns the boolean result and
the ledger after the call. -/
def checkReplayProtection (ttlSeconds : Int) (now : Int) (request : ChatRequest)
    (seen : Ledger) : Bool × Ledger :=
  let request_age := now - request.timestamp
  if request_age > ttlSeconds then (false, seen)
  else if request_age < -30 then (false, seen)
  else if (seen.lookup request.request_id).isSome then (false, seen)
  else
    let recorded : Ledger := (request.request_id, now) :: seen
    let cutoff := now - 3600
    (true, recorded.filter (fun rid_ts => rid_ts.2 > cutoff))

/-- A chat message: one of the `Dict[str, str]` entries of the `messages`
array (a list of key/value string pairs). -/
def ChatMessage := List (String × String)

instance : DecidableEq ChatMessage := by
  unfold ChatMessage; exact inferInstance

/-- The raw JSON payload found inside a decrypted ciphertext, before
pydantic validation: the `messages` field and the four optional fields of
`models.DecryptedChatPayload` as the client supplied them. -/
structure RawPayload where
  messages : List ChatMessage
  temperature : Option ℚ
  top_p : Option ℚ
  max_tokens : Option Int
  stream : Option Bool
  deriving DecidableEq

/-- Model of `models.DecryptedChatPayload` (models.py lines 18-26) after
pydantic validation. -/
structure DecryptedChatPayload where
  messages : List ChatMessage
  temperature : ℚ
  top_p : ℚ
  max_tokens : Int
  stream : Bool
  deriving DecidableEq

/-- Pydantic construction `DecryptedChatPayload(**plaintext_data)`
(models.py lines 18-26): defaults `0.7`, `0.9`, `2048`, `True` are applied
for absent fields and the field constraints `0 ≤ temperature ≤ 2`,
`0 ≤ top_p ≤ 1`, `1 ≤ max_tokens ≤ 8192` are enforced; a violation raises
a validation error (`none`).  Values inside the bounds pass through
unchanged: the schema clamps nothing. -/
def validatePayload (raw : RawPayload) : Option DecryptedChatPayload :=
  let t := raw.temperature.getD (7 / 10)
  let p := raw.top_p.getD (9 / 10)
  let m := raw.max_tokens.getD 2048
  let st := raw.stream.getD true
  if 0 ≤ t ∧ t ≤ 2 ∧ 0 ≤ p ∧ p ≤ 1 ∧ 1 ≤ m ∧ m ≤ 8192 then
    some ⟨raw.messages, t, p, m, st⟩
  else none

/-- The two error outcomes `decrypt_request` can raise: `ValueError
("Request failed replay protection")` and `ValueError("Decryption failed")`. -/
inductive DecryptError where
  | replayRejected
  | decryptFailed
  deriving DecidableEq, Repr

/-- Model of `HPKEService.decrypt_request` (hpke_service.py lines 71-97).
`jsonParse` abstracts `json.loads(ciphertext.decode('utf-8'))`, the one
library call of the body whose grammar the claims do not depend on; every
theorem below quantifies over it.  Step order as in the source: replay
check first (its ledger update survives whatever happens later), then
base64 decoding of the three envelope fields, then JSON parsing, then
pydantic validation; any failure after the replay check is collapsed to
the opaque `decryptFailed`. -/
def decrypt_request (jsonParse : List Nat → Option RawPayload)
    (ttlSeconds : Int) (now : Int) (request : ChatRequest) (seen : Ledger) :
    Except DecryptError DecryptedChatPayload × Ledger :=
  match checkReplayProtection ttlSeconds now request seen with
  | (false, seen1) => (Except.error DecryptError.replayRejected, seen1)
  | (true, seen1) =>
    match b64decode request.encapsulated_key, b64decode request.ciphertext,
        b64decode request.aad with
    | some _, some ct, some _ =>
      match jsonParse ct with
      | some raw =>
        match validatePayload raw with
        | some payload => (Except.ok payload, seen1)
        | none => (Except.error DecryptError.decryptFailed, seen1)
      | none => (Except.error DecryptError.decryptFailed, seen1)
    | _, _, _ => (Except.error DecryptError.decryptFailed, seen1)

/-! ## The `/api/chat` handler (main.py lines 88-171)

`chat_endpoint` runs rate limiting (429), the circuit breaker (503), then
decrypts; the `try` block catches every exception — including the two
`ValueError`s of `decrypt_request` — and raises HTTP 500 "Internal server
error".  On success it returns the SSE stream produced by `event_stream`.
The inference streamer is abstracted by the list of tokens it yields, and
the client is taken to stay connected throughout (the condition of the
claims about the stream). -/

/-- An SSE event as yielded by the generator: `(event, data)`. -/
def SSEEvent := String × String

instance : DecidableEq SSEEvent := by
  unfold SSEEvent; exact inferInstance

/-- The loop of `event_stream` (main.py lines 126-161) with the client
connected.  `client_pubkey` is assigned only inside the token loop
(line 140); the `Option` argument carries whether it has been assigned,
so that the terminal-event code (line 149) referencing it after zero
iterations models Python's `UnboundLocalError`, which the generic
`except Exception` handler (line 158) turns into an `error` event. -/
def eventStreamGen (device_pubkey : String) :
    List String → Nat → Option (List Nat) → List SSEEvent
  | [], chunk_sequence, assigned =>
    match assigned with
    | some client_pubkey =>
        [("end", jdumps (encrypt_chunk "" client_pubkey chunk_sequence))]
    | none => [("error", "Internal server error")]
  | token :: rest, chunk_sequence, _ =>
    match b64decode device_pubkey with
    | some client_pubkey =>
        ("chunk", jdumps (encrypt_chunk token client_pubkey chunk_sequence)) ::
          eventStreamGen device_pubkey rest (chunk_sequence + 1)
            (some client_pubkey)
    | none => [("error", "Internal server error")]

/-- Model of `event_stream` (main.py lines 126-161): the SSE events emitted
for a connected client when the inference streamer yields `tokens`.
`chunk_sequence` starts at 0 and `client_pubkey` starts unassigned. -/
def event_stream (device_pubkey : String) (tokens : List String) :
    List SSEEvent :=
  eventStreamGen device_pubkey tokens 0 none

/-- The observable response of `chat_endpoint`. -/
inductive HandlerResponse where
  | httpError (status_code : Nat) (detail : String)
  | sse (events : List SSEEvent)
  deriving DecidableEq

/-- Model of `chat_endpoint` (main.py lines 88-171).  `rateAllowed` and
`breakerAllowed` are the results of `rate_limiter.allow_request` and
`circuit_breaker.can_make_request`; `tokens` is what the inference
streamer yields.  After a successful decrypt, line 114 evaluates
`decrypted_payload.messages[0]['content']` for logging, so an empty
message list or a first message without a `content` key raises and is
caught by the outer handler (HTTP 500); both `decrypt_request` errors are
likewise caught there and surfaced as HTTP 500 "Internal server error". -/
def chat_endpoint (jsonParse : List Nat → Option RawPayload)
    (ttlSeconds : Int) (now : Int) (rateAllowed breakerAllowed : Bool)
    (chat_request : ChatRequest) (seen : Ledger) (tokens : List String) :
    HandlerResponse × Ledger :=
  if ¬rateAllowed then
    (HandlerResponse.httpError 429 "Rate limit exceeded", seen)
  else if ¬breakerAllowed then
    (HandlerResponse.httpError 503 "Service temporarily unavailable", seen)
  else
    match decrypt_request jsonParse ttlSeconds now chat_request seen with
    | (Except.ok payload, seen1) =>
      match payload.messages with
      | [] => (HandlerResponse.httpError 500 "Internal server error", seen1)
      | m0 :: _ =>
        match m0.lookup "content" with
        | none => (HandlerResponse.httpError 500 "Internal server error", seen1)
        | some _ =>
            (HandlerResponse.sse
              (event_stream chat_request.device_pubkey tokens), seen1)
    | (Except.error _, seen1) =>
        (HandlerResponse.httpError 500 "Internal server error", seen1)

/-! ## Secure-logging formatter and the handler's log records
(`SanitizedFormatter`, logging_middleware.py lines 9-53, and the `logging`
calls of `chat_endpoint`, main.py lines 112-129). -/

/-- `SanitizedFormatter.SENSITIVE_FIELDS` (logging_middleware.py 14-18). -/
def sensitiveFields : List String :=
  ["encapsulated_key", "ciphertext", "aad", "device_pubkey",
   "authorization", "cookie", "session", "token", "key",
   "password", "secret", "private"]

/-- Whether `needle` occurs as a prefix of `hay` (character lists). -/
def charsPfx : List Char → List Char → Bool
  | [], _ => true
  | _ :: _, [] => false
  | a :: as, b :: bs => a = b && charsPfx as bs

/-- Whether `needle` occurs as a contiguous substring of `hay`
(Python's `needle in hay` on strings). -/
def charsSubstr (needle : List Char) : List Char → Bool
  | [] => needle.isEmpty
  | b :: bs => charsPfx needle (b :: bs) || charsSubstr needle bs

/-- Model of `SanitizedFormatter._sanitize_string` (lines 39-43): the whole
record is replaced by `[REDACTED]` when any sensitive field name occurs in
the lowercased text, and passed through verbatim otherwise. -/
def sanitizeString (text : String) : String :=
  if sensitiveFields.any
      (fun f => charsSubstr f.data (text.data.map Char.toLower)) then
    "[REDACTED]"
  else text

/-- The log records the `/api/chat` handler emits at the default `INFO`
level on the success path of a request, after the sanitizing formatter:
main.py line 112 (`Decrypting request {id}`), line 114
(`Decrypted payload: {first message content[:50]}...`), and line 129
(`Starting encrypted streaming for request {id}`). -/
def chatHandlerLogs (request_id : String) (first_content : String) :
    List String :=
  ["Decrypting request " ++ request_id,
   "Decrypted payload: " ++ first_content.take 50 ++ "...",
   "Starting encrypted streaming for request " ++ request_id].map
    sanitizeString

/-! ## Rate limiter (`services/rate_limiter.py` lines 8-107)

Deques of request timestamps, one map keyed by client address and one by
device public key.  `_check_window` mutates the deque it is handed
(popping expired entries from the left); the state returned by each
operation reflects those in-place mutations.  Missing map entries read as
the empty deque (`defaultdict(deque)`). -/

/-- The two deque maps plus the metric counters of `RateLimiter`. -/
structure RateLimiterState where
  ip_windows : List (String × List Int)
  device_windows : List (String × List Int)
  total_requests : Nat
  blocked_requests : Nat
  deriving DecidableEq

/-- Read a deque out of a window map (`defaultdict`: absent means empty). -/
def getWindow (m : List (String × List Int)) (k : String) : List Int :=
  (m.lookup k).getD []

/-- Store a deque back into a window map under its key. -/
def setWindow : List (String × List Int) → String → List Int →
    List (String × List Int)
  | [], k, w => [(k, w)]
  | (k', w') :: rest, k, w =>
      if k' = k then (k, w) :: rest else (k', w') :: setWindow rest k w

/-- Model of `RateLimiter._check_window` (lines 59-80): evict timestamps
older than the 60-second window from the left of the deque, then reject if
the deque holds at least `RATE_LIMIT_PER_MINUTE` entries or at least
`RATE_LIMIT_BURST` of them fall within the last 10 seconds.  Returns the
verdict and the deque after the in-place eviction. -/
def checkWindow (perMinuteLimit burstLimit : Nat) (window : List Int)
    (current_time : Int) : Bool × List Int :=
  let window := window.dropWhile (fun t => t < current_time - 60)
  if window.length ≥ perMinuteLimit then (false, window)
  else
    let recent_requests :=
      (window.filter (fun t => t ≥ current_time - 10)).length
    if recent_requests ≥ burstLimit then (false, window)
    else (true, window)

/-- The per-map pass of `_cleanup_old_entries`: pop entries older than the
cutoff from the left of every deque and delete deques left empty. -/
def cleanWindows (m : List (String × List Int)) (cutoff : Int) :
    List (String × List Int) :=
  (m.map (fun kw => (kw.1, kw.2.dropWhile (fun t => t < cutoff)))).filter
    (fun kw => ¬kw.2.isEmpty)

/-- Model of `RateLimiter._cleanup_old_entries` (lines 82-107): every 100th
request, drop entries older than two windows from every deque and delete
deques that end up empty. -/
def cleanupOldEntries (st : RateLimiterState) (current_time : Int) :
    RateLimiterState :=
  if st.total_requests % 100 ≠ 0 then st
  else
    { st with ip_windows := cleanWindows st.ip_windows (current_time - 120),
              device_windows :=
                cleanWindows st.device_windows (current_time - 120) }

/-- Model of `RateLimiter.allow_request` (lines 29-57): check the address
deque, then the device deque; on admission append the current timestamp to
both and run the periodic cleanup; on rejection return with only the
evictions performed so far applied. -/
def allow_request (enabled : Bool) (perMinuteLimit burstLimit : Nat)
    (st : RateLimiterState) (client_ip device_pubkey : String)
    (current_time : Int) : Bool × RateLimiterState :=
  if ¬enabled then (true, st)
  else
    let st := { st with total_requests := st.total_requests + 1 }
    let (ipOk, ipW) := checkWindow perMinuteLimit burstLimit
      (getWindow st.ip_windows client_ip) current_time
    let st := { st with ip_windows := setWindow st.ip_windows client_ip ipW }
    if ¬ipOk then
      (false, { st with blocked_requests := st.blocked_requests + 1 })
    else
      let (devOk, devW) := checkWindow perMinuteLimit burstLimit
        (getWindow st.device_windows device_pubkey) current_time
      let st := { st with
        device_windows := setWindow st.device_windows device_pubkey devW }
      if ¬devOk then
        (false, { st with blocked_requests := st.blocked_requests + 1 })
      else
        let st := { st with
          ip_windows := setWindow st.ip_windows client_ip (ipW ++ [current_time]),
          device_windows :=
            setWindow st.device_windows device_pubkey (devW ++ [current_time]) }
        (true, cleanupOldEntries st current_time)

/-! ## Circuit breaker (`backend/router/services/circuit_breaker.py`) -/

/-- `CircuitBreakerState` (circuit_breaker.py lines 9-12). -/
inductive CircuitBreakerState where
  | closed
  | opened
  | halfOpen
  deriving DecidableEq, Repr

/-- The mutable fields of `CircuitBreaker` (lines 21-34). -/
structure CircuitBreaker where
  enabled : Bool
  state : CircuitBreakerState
  failure_count : Nat
  last_failure_time : Option Int
  success_count : Nat
  total_requests : Nat
  total_failures : Nat
  state_transitions : Nat
  deriving DecidableEq

/-- `CircuitBreaker._transition_to_open` (lines 96-100). -/
def transitionToOpen (cb : CircuitBreaker) : CircuitBreaker :=
  if cb.state ≠ CircuitBreakerState.opened then
    { cb with state := CircuitBreakerState.opened,
              state_transitions := cb.state_transitions + 1 }
  else cb

/-- `CircuitBreaker._transition_to_half_open` (lines 102-107). -/
def transitionToHalfOpen (cb : CircuitBreaker) : CircuitBreaker :=
  if cb.state ≠ CircuitBreakerState.halfOpen then
    { cb with state := CircuitBreakerState.halfOpen, success_count := 0,
              state_transitions := cb.state_transitions + 1 }
  else cb

/-- `CircuitBreaker._transition_to_closed` (lines 109-115). -/
def transitionToClosed (cb : CircuitBreaker) : CircuitBreaker :=
  if cb.state ≠ CircuitBreakerState.closed then
    { cb with state := CircuitBreakerState.closed, failure_count := 0,
              success_count := 0,
              state_transitions := cb.state_transitions + 1 }
  else cb

/-- Model of `CircuitBreaker.can_make_request` (lines 36-64): Closed always
admits; Open admits — moving to Half-Open — exactly when at least
`CIRCUIT_RESET_SECONDS` have elapsed since the last failure; Half-Open
always admits. -/
def can_make_request (resetSeconds : Int) (cb : CircuitBreaker)
    (current_time : Int) : Bool × CircuitBreaker :=
  if ¬cb.enabled then (true, cb)
  else
    let cb := { cb with total_requests := cb.total_requests + 1 }
    match cb.state with
    | CircuitBreakerState.closed => (true, cb)
    | CircuitBreakerState.opened =>
      match cb.last_failure_time with
      | some t =>
          if current_time - t ≥ resetSeconds then (true, transitionToHalfOpen cb)
          else (false, cb)
      | none => (false, cb)
    | CircuitBreakerState.halfOpen => (true, cb)

/-- Model of `CircuitBreaker.record_success` (lines 66-78): in Half-Open,
count successes and close after the third; in Closed, reset the failure
count; in Open, no effect. -/
def record_success (cb : CircuitBreaker) : CircuitBreaker :=
  if ¬cb.enabled then cb
  else
    match cb.state with
    | CircuitBreakerState.halfOpen =>
      let cb := { cb with success_count := cb.success_count + 1 }
      if cb.success_count ≥ 3 then transitionToClosed cb else cb
    | CircuitBreakerState.closed => { cb with failure_count := 0 }
    | CircuitBreakerState.opened => cb

/-- Model of `CircuitBreaker.record_failure` (lines 80-94): bump the
failure counters and the last-failure instant; trip Open from Closed once
`CIRCUIT_BREAKER_THRESHOLD` consecutive failures accumulate, and from
Half-Open immediately. -/
def record_failure (threshold : Nat) (cb : CircuitBreaker)
    (current_time : Int) : CircuitBreaker :=
  if ¬cb.enabled then cb
  else
    let cb := { cb with total_failures := cb.total_failures + 1,
                        failure_count := cb.failure_count + 1,
                        last_failure_time := some current_time }
    match cb.state with
    | CircuitBreakerState.closed =>
        if cb.failure_count ≥ threshold then transitionToOpen cb else cb
    | CircuitBreakerState.halfOpen => transitionToOpen cb
    | CircuitBreakerState.opened => cb

/-! ## Health monitor (`backend/router/services/health_monitor.py`) -/

/-- `NodeStatus` (health_monitor.py lines 12-15). -/
inductive NodeStatus where
  | healthy
  | unhealthy
  | unknown
  deriving DecidableEq, Repr

/-- `NodeHealth` (health_monitor.py lines 18-25), without the probe
timestamp, which no claim mentions. -/
structure NodeHealth where
  endpoint : String
  status : NodeStatus
  consecutive_failures : Nat
  consecutive_successes : Nat
  last_error : String
  deriving DecidableEq

/-- The possible outcomes of one `_perform_health_check` probe. -/
inductive ProbeOutcome where
  | ok200
  | non200
  | timeout
  | exc
  deriving DecidableEq, Repr

/-- Model of `_perform_health_check` (lines 141-174): it returns
`status_code == 200`, and its blanket `except` turns every exception —
timeouts included — into `False`. -/
def outcomeIsHealthy : ProbeOutcome → Bool
  | ProbeOutcome.ok200 => true
  | _ => false

/-- Model of `HealthMonitor._check_node_health` (lines 99-139) on one
record: a healthy probe clears the failure counter, bumps the success
counter, and promotes to Healthy at `HEALTHY_THRESHOLD` unless already
Healthy; any other outcome clears successes, bumps failures, and demotes
to Unhealthy at `UNHEALTHY_THRESHOLD` unless already Unhealthy. -/
def checkNodeHealth (healthyThreshold unhealthyThreshold : Nat)
    (node : NodeHealth) (outcome : ProbeOutcome) : NodeHealth :=
  if outcomeIsHealthy outcome then
    let node := { node with consecutive_failures := 0,
                            consecutive_successes := node.consecutive_successes + 1,
                            last_error := "" }
    if node.status ≠ NodeStatus.healthy ∧
        node.consecutive_successes ≥ healthyThreshold then
      { node with status := NodeStatus.healthy }
    else node
  else
    let node := { node with consecutive_successes := 0,
                            consecutive_failures := node.consecutive_failures + 1 }
    if node.status ≠ NodeStatus.unhealthy ∧
        node.consecutive_failures ≥ unhealthyThreshold then
      { node with status := NodeStatus.unhealthy }
    else node

/-! ## Sample values for concrete evaluations -/

/-- A fresh, well-formed envelope (all byte fields valid base64). -/
def sampleRequest : ChatRequest :=
  { encapsulated_key := "AA==", ciphertext := "AA==", aad := "AA==",
    timestamp := 0, request_id := "req-1", device_pubkey := "AQID" }

/-- The envelope of the repository's replay test: request id
`replay-test-456`, resubmitted after a first accepted call. -/
def replayedRequest : ChatRequest :=
  { encapsulated_key := "AA==", ciphertext := "AA==", aad := "AA==",
    timestamp := 0, request_id := "replay-test-456", device_pubkey := "AQID" }

/-- A raw decrypted payload whose three sampling parameters all exceed the
operational bounds of the spec (1.5 / 0.95 / 4096) while staying inside
the schema bounds of models.py (2 / 1 / 8192). -/
def overLimitRaw : RawPayload :=
  { messages := [[("role", "user"), ("content", "hi")]],
    temperature := some 2, top_p := some 1, max_tokens := some 8192,
    stream := some true }

/-- A raw decrypted payload whose temperature violates even the schema
bound of models.py. -/
def outOfSchemaRaw : RawPayload :=
  { messages := [[("role", "user"), ("content", "hi")]],
    temperature := some 3, top_p := some 1, max_tokens := some 100,
    stream := some true }

/-- A freshly constructed circuit breaker (circuit_breaker.py lines 21-34). -/
def freshBreaker : CircuitBreaker :=
  { enabled := true, state := CircuitBreakerState.closed, failure_count := 0,
    last_failure_time := none, success_count := 0, total_requests := 0,
    total_failures := 0, state_transitions := 0 }

/-- A device public key as the client sends it: the base64 of 3 key bytes. -/
def sampleDevicePubkey : String := b64encode [1, 2, 3]

/-- A limiter state holding one earlier admit (at instant 0) for one
client address and one device key. -/
def sampleLimiter : RateLimiterState :=
  { ip_windows := [("203.0.113.7", [0])],
    device_windows := [("device-key-1", [0])],
    total_requests := 1, blocked_requests := 0 }

/-- A just-initialized health record for one configured upstream. -/
def freshNode : NodeHealth :=
  { endpoint := "https://10.0.0.2:8443", status := NodeStatus.unknown,
    consecutive_failures := 0, consecutive_successes := 0, last_error := "" }

/-- A breaker tripped Open by one failure at instant 0 under threshold 1. -/
def openBreaker : CircuitBreaker :=
  { enabled := true, state := CircuitBreakerState.opened, failure_count := 1,
    last_failure_time := some 0, success_count := 0, total_requests := 0,
    total_failures := 1, state_transitions := 1 }

/-- A breaker probing recovery in Half-Open with no successes yet. -/
def halfOpenBreaker : CircuitBreaker :=
  { enabled := true, state := CircuitBreakerState.halfOpen,
    failure_count := 1, last_failure_time := some 0, success_count := 0,
    total_requests := 1, total_failures := 1, state_transitions := 2 }

/-! ## One call against the replay ledger, and ledger evolution traces -/

/-- One later call against the replay ledger: the instant it happens and
the envelope it carries. -/
structure ReplayCall where
  now : Int
  request : ChatRequest

/-- The replay ledger after a sequence of further
`_check_replay_protection` calls (acceptances insert and evict; rejections
leave the ledger alone). -/
def ledgerAfter (ttlSeconds : Int) (seen : Ledger) (calls : List ReplayCall) :
    Ledger :=
  calls.foldl
    (fun L c => (checkReplayProtection ttlSeconds c.now c.request L).2) seen

/-! ## Helper lemmas -/

theorem utf8Encode_append (a b : String) :
    utf8Encode (a ++ b) = utf8Encode a ++ utf8Encode b := by
  simp [utf8Encode, String.data_append]

/-- Filtering by a predicate the looked-up entry satisfies preserves the
lookup result. -/
theorem lookup_filter_of_lookup (p : String × Int → Bool) :
    ∀ (L : List (String × Int)) (rid : String) (ts : Int),
      L.lookup rid = some ts → p (rid, ts) = true →
      (L.filter p).lookup rid = some ts := by
  intro L
  induction L with
  | nil => intro rid ts h _; simp [List.lookup] at h
  | cons kv tl ih =>
    intro rid ts h hp
    obtain ⟨k, v⟩ := kv
    by_cases hk : rid = k
    · subst hk
      simp [List.lookup] at h
      subst h
      simp [List.filter, hp, List.lookup]
    · simp [List.lookup, beq_false_of_ne hk] at h
      by_cases hkv : p (k, v)
      · simpa [List.filter, hkv, List.lookup, beq_false_of_ne hk]
          using ih rid ts h hp
      · simpa [List.filter, hkv] using ih rid ts h hp

/-- A single `_check_replay_protection` call at an instant before the
recorded entry's eviction horizon preserves the entry. -/
theorem checkReplay_preserves_lookup (ttlSeconds nowC : Int)
    (c : ChatRequest) (L : Ledger) (rid : String) (ts : Int)
    (h : L.lookup rid = some ts) (hwin : nowC < ts + 3600) :
    ((checkReplayProtection ttlSeconds nowC c L).2).lookup rid = some ts := by
  by_cases h1 : nowC - c.timestamp > ttlSeconds
  · simpa [checkReplayProtection, h1] using h
  by_cases h2 : nowC - c.timestamp < -30
  · simpa [checkReplayProtection, h1, h2] using h
  by_cases h3 : (L.lookup c.request_id).isSome
  · simpa [checkReplayProtection, h1, h2, h3] using h
  · have hne : ¬c.request_id = rid := by
      intro he
      rw [he, h] at h3
      simp at h3
    have hp : (fun rid_ts : String × Int =>
        decide (rid_ts.2 > nowC - 3600)) (rid, ts) = true := by
      simp only [gt_iff_lt, decide_eq_true_eq]
      omega
    have hres : (checkReplayProtection ttlSeconds nowC c L).2
        = ((c.request_id, nowC) :: L).filter
            (fun rt => decide (rt.2 > nowC - 3600)) := by
      simp [checkReplayProtection, h1, h2, h3]
    rw [hres]
    have hcons : List.filter (fun rt => decide (rt.2 > nowC - 3600))
        ((c.request_id, nowC) :: L)
        = (c.request_id, nowC) ::
            List.filter (fun rt => decide (rt.2 > nowC - 3600)) L := by
      simp
    rw [hcons]
    have hner : ¬rid = c.request_id := fun he => hne he.symm
    simp only [List.lookup, beq_false_of_ne hner]
    exact lookup_filter_of_lookup _ L rid ts h hp

/-- Every trace of later replay-ledger operations within the entry's
retention horizon preserves the entry. -/
theorem ledgerAfter_preserves_lookup (ttlSeconds : Int) (rid : String)
    (ts : Int) :
    ∀ (calls : List ReplayCall) (L : Ledger), L.lookup rid = some ts →
      (∀ c ∈ calls, c.now < ts + 3600) →
      (ledgerAfter ttlSeconds L calls).lookup rid = some ts := by
  intro calls
  induction calls with
  | nil => intro L h _; exact h
  | cons c rest ih =>
    intro L h hc
    have h1 := checkReplay_preserves_lookup ttlSeconds c.now c.request L rid
      ts h (hc c (by simp))
    exact ih _ h1 (fun c' hc' => hc c' (by simp [hc']))

/-- An accepted `_check_replay_protection` call records the request id at
the call instant. -/
theorem checkReplay_accept_lookup (ttlSeconds t : Int) (req : ChatRequest)
    (L0 L1 : Ledger)
    (h : checkReplayProtection ttlSeconds t req L0 = (true, L1)) :
    L1.lookup req.request_id = some t := by
  by_cases h1 : t - req.timestamp > ttlSeconds
  · simp [checkReplayProtection, h1] at h
  by_cases h2 : t - req.timestamp < -30
  · simp [checkReplayProtection, h1, h2] at h
  by_cases h3 : (L0.lookup req.request_id).isSome
  · simp [checkReplayProtection, h1, h2, h3] at h
  · have hres : L1 = ((req.request_id, t) :: L0).filter
        (fun rt => decide (rt.2 > t - 3600)) := by
      have := congrArg Prod.snd h
      simpa [checkReplayProtection, h1, h2, h3] using this.symm
    have hcons : List.filter (fun rt => decide (rt.2 > t - 3600))
        ((req.request_id, t) :: L0)
        = (req.request_id, t) ::
            List.filter (fun rt => decide (rt.2 > t - 3600)) L0 := by
      simp
    rw [hres, hcons]
    simp [List.lookup]

/-- Every branch of `decrypt_request` returns the ledger produced by the
replay check: failures after the check never roll the recording back. -/
theorem decrypt_request_snd (jsonParse : List Nat → Option RawPayload)
    (ttlSeconds now : Int) (request : ChatRequest) (seen : Ledger) :
    (decrypt_request jsonParse ttlSeconds now request seen).2
      = (checkReplayProtection ttlSeconds now request seen).2 := by
  unfold decrypt_request
  split <;> rename_i seen1 heq <;> rw [heq] <;>
    repeat first
      | rfl
      | split

/-- A request whose id the current ledger already holds is turned away by
`decrypt_request` with the replay-protection error, whatever its
timestamp. -/
theorem decrypt_request_rejects_known_id
    (jsonParse : List Nat → Option RawPayload) (ttlSeconds t2 : Int)
    (req2 : ChatRequest) (L : Ledger) (ts : Int)
    (hl : L.lookup req2.request_id = some ts) :
    (decrypt_request jsonParse ttlSeconds t2 req2 L).1
      = Except.error DecryptError.replayRejected := by
  by_cases h1 : t2 - req2.timestamp > ttlSeconds
  · simp [decrypt_request, checkReplayProtection, h1]
  by_cases h2 : t2 - req2.timestamp < -30
  · simp [decrypt_request, checkReplayProtection, h1, h2]
  · have h3 : (L.lookup req2.request_id).isSome := by rw [hl]; rfl
    simp [decrypt_request, checkReplayProtection, h1, h2, h3]

/-- Prepending a failure instant to a failure run shifts the final
last-failure instant bookkeeping. -/
theorem getLast?_or_shift (t : Int) (rest : List Int) (o : Option Int) :
    (t :: rest).getLast?.or o = rest.getLast?.or (some t) := by
  cases rest with
  | nil => simp
  | cons r rs =>
    rw [List.getLast?_cons_cons]
    cases h : (r :: rs).getLast? with
    | none =>
      have : (r :: rs) ≠ [] := by simp
      rw [List.getLast?_eq_none_iff] at h
      exact absurd h this
    | some x => simp

/-- Once the breaker is Open, further recorded failures keep it Open and
move the last-failure instant to the latest failure. -/
theorem foldFailures_from_opened (threshold : Nat) :
    ∀ (ts : List Int) (cb : CircuitBreaker), cb.enabled = true →
      cb.state = CircuitBreakerState.opened →
      (ts.foldl (record_failure threshold) cb).state
          = CircuitBreakerState.opened
      ∧ (ts.foldl (record_failure threshold) cb).last_failure_time
          = ts.getLast?.or cb.last_failure_time
      ∧ (ts.foldl (record_failure threshold) cb).enabled = true := by
  intro ts
  induction ts with
  | nil =>
    intro cb hen hst
    exact ⟨hst, by simp, hen⟩
  | cons t rest ih =>
    intro cb hen hst
    have hcb1 : record_failure threshold cb t
        = { cb with total_failures := cb.total_failures + 1,
                    failure_count := cb.failure_count + 1,
                    last_failure_time := some t } := by
      simp [record_failure, hen, hst]
    have hfold : (t :: rest).foldl (record_failure threshold) cb
        = rest.foldl (record_failure threshold) (record_failure threshold cb t) :=
      rfl
    obtain ⟨h1, h2, h3⟩ := ih (record_failure threshold cb t)
      (by rw [hcb1]; exact hen) (by rw [hcb1]; exact hst)
    rw [hfold]
    refine ⟨h1, ?_, h3⟩
    have hlt : (record_failure threshold cb t).last_failure_time = some t := by
      rw [hcb1]
    rw [h2, hlt, getLast?_or_shift]

/-- From Closed, a nonempty run of recorded failures long enough to meet
the threshold trips the breaker Open, with the last-failure instant at the
run's final instant. -/
theorem foldFailures_from_closed (threshold : Nat) (hth : 1 ≤ threshold) :
    ∀ (ts : List Int) (cb : CircuitBreaker), cb.enabled = true →
      cb.state = CircuitBreakerState.closed →
      threshold ≤ cb.failure_count + ts.length → ts ≠ [] →
      (ts.foldl (record_failure threshold) cb).state
          = CircuitBreakerState.opened
      ∧ (ts.foldl (record_failure threshold) cb).last_failure_time
          = ts.getLast?.or cb.last_failure_time := by
  intro ts
  induction ts with
  | nil => intro cb _ _ _ hne; exact absurd rfl hne
  | cons t rest ih =>
    intro cb hen hst hlen _
    have hfold : (t :: rest).foldl (record_failure threshold) cb
        = rest.foldl (record_failure threshold) (record_failure threshold cb t) :=
      rfl
    by_cases htrip : cb.failure_count + 1 ≥ threshold
    · have hcb1 : record_failure threshold cb t
          = { cb with state := CircuitBreakerState.opened,
                      total_failures := cb.total_failures + 1,
                      failure_count := cb.failure_count + 1,
                      last_failure_time := some t,
                      state_transitions := cb.state_transitions + 1 } := by
        simp [record_failure, hen, hst, htrip, transitionToOpen]
      obtain ⟨h1, h2, _⟩ := foldFailures_from_opened threshold rest
        (record_failure threshold cb t) (by rw [hcb1]; exact hen)
        (by rw [hcb1])
      rw [hfold]
      refine ⟨h1, ?_⟩
      have hlt : (record_failure threshold cb t).last_failure_time = some t := by
        rw [hcb1]
      rw [h2, hlt, getLast?_or_shift]
    · have hcb1 : record_failure threshold cb t
          = { cb with total_failures := cb.total_failures + 1,
                      failure_count := cb.failure_count + 1,
                      last_failure_time := some t } := by
        simp [record_failure, hen, hst, htrip]
      have hne' : rest ≠ [] := by
        intro he
        rw [he] at hlen
        simp at hlen
        omega
      have hlen' : threshold ≤ (record_failure threshold cb t).failure_count
          + rest.length := by
        rw [hcb1]
        show threshold ≤ cb.failure_count + 1 + rest.length
        simp at hlen
        omega
      obtain ⟨h1, h2⟩ := ih (record_failure threshold cb t)
        (by rw [hcb1]; exact hen) (by rw [hcb1]; exact hst) hlen' hne'
      rw [hfold]
      refine ⟨h1, ?_⟩
      have hlt : (record_failure threshold cb t).last_failure_time = some t := by
        rw [hcb1]
      rw [h2, hlt, getLast?_or_shift]

/-- Failing probes drive a health record along the counter/status
invariant: `j` accumulated consecutive failures keep the original status
below the threshold and pin the record Unhealthy from the threshold on. -/
theorem foldProbeFailures (H U : Nat) (s0 : NodeStatus)
    (hs0 : s0 ≠ NodeStatus.unhealthy) :
    ∀ (os : List ProbeOutcome) (st : NodeHealth) (j : Nat),
      (∀ o ∈ os, outcomeIsHealthy o = false) →
      st.consecutive_failures = j →
      st.status = (if j < U then s0 else NodeStatus.unhealthy) →
      (os.foldl (checkNodeHealth H U) st).consecutive_failures = j + os.length
      ∧ (os.foldl (checkNodeHealth H U) st).status
          = (if j + os.length < U then s0 else NodeStatus.unhealthy) := by
  intro os
  induction os with
  | nil =>
    intro st j _ hf hs
    constructor
    · simpa using hf
    · simpa using hs
  | cons o rest ih =>
    intro st j hall hf hs
    have hoo : outcomeIsHealthy o = false := hall o (by simp)
    have hcf1 : (checkNodeHealth H U st o).consecutive_failures = j + 1 := by
      simp only [checkNodeHealth, hoo, Bool.false_eq_true, if_false]
      split <;> simp [hf]
    have hstat1 : (checkNodeHealth H U st o).status
        = (if j + 1 < U then s0 else NodeStatus.unhealthy) := by
      simp only [checkNodeHealth, hoo, Bool.false_eq_true, if_false]
      by_cases h1 : j + 1 < U
      · have hjU : j < U := by omega
        have hss : st.status = s0 := by rw [hs, if_pos hjU]
        rw [if_pos h1, if_neg]
        · exact hss
        · intro hc
          exact absurd (by omega : ¬st.consecutive_failures + 1 ≥ U)
            (fun hn => hn (by omega : st.consecutive_failures + 1 ≥ U))
      · rw [if_neg h1]
        by_cases hjU : j < U
        · have hss : st.status = s0 := by rw [hs, if_pos hjU]
          rw [if_pos]
          exact ⟨by rw [hss]; exact hs0, by omega⟩
        · have hss : st.status = NodeStatus.unhealthy := by
            rw [hs, if_neg hjU]
          rw [if_neg]
          · exact hss
          · intro hc
            exact hc.1 hss
      done
    have hfold : (o :: rest).foldl (checkNodeHealth H U) st
        = rest.foldl (checkNodeHealth H U) (checkNodeHealth H U st o) := rfl
    obtain ⟨h1, h2⟩ := ih (checkNodeHealth H U st o) (j + 1)
      (fun o' ho' => hall o' (by simp [ho'])) hcf1 hstat1
    rw [hfold]
    constructor
    · rw [h1]; simp; omega
    · rw [h2]
      have : j + 1 + rest.length = j + (rest.length + 1) := by omega
      rw [this]
      simp

/-- Healthy probes drive a health record along the symmetric invariant
towards the Healthy status threshold. -/
theorem foldProbeSuccesses (H U : Nat) (s0 : NodeStatus)
    (hs0 : s0 ≠ NodeStatus.healthy) :
    ∀ (os : List ProbeOutcome) (st : NodeHealth) (j : Nat),
      (∀ o ∈ os, outcomeIsHealthy o = true) →
      st.consecutive_successes = j →
      st.status = (if j < H then s0 else NodeStatus.healthy) →
      (os.foldl (checkNodeHealth H U) st).consecutive_successes = j + os.length
      ∧ (os.foldl (checkNodeHealth H U) st).status
          = (if j + os.length < H then s0 else NodeStatus.healthy) := by
  intro os
  induction os with
  | nil =>
    intro st j _ hf hs
    constructor
    · simpa using hf
    · simpa using hs
  | cons o rest ih =>
    intro st j hall hf hs
    have hoo : outcomeIsHealthy o = true := hall o (by simp)
    have hcf1 : (checkNodeHealth H U st o).consecutive_successes = j + 1 := by
      simp only [checkNodeHealth, hoo, if_true]
      split <;> simp [hf]
    have hstat1 : (checkNodeHealth H U st o).status
        = (if j + 1 < H then s0 else NodeStatus.healthy) := by
      simp only [checkNodeHealth, hoo, if_true]
      by_cases h1 : j + 1 < H
      · have hjU : j < H := by omega
        have hss : st.status = s0 := by rw [hs, if_pos hjU]
        rw [if_pos h1, if_neg]
        · exact hss
        · intro hc
          omega
      · rw [if_neg h1]
        by_cases hjU : j < H
        · have hss : st.status = s0 := by rw [hs, if_pos hjU]
          rw [if_pos]
          exact ⟨by rw [hss]; exact hs0, by omega⟩
        · have hss : st.status = NodeStatus.healthy := by
            rw [hs, if_neg hjU]
          rw [if_neg]
          · exact hss
          · intro hc
            exact hc.1 hss
    have hfold : (o :: rest).foldl (checkNodeHealth H U) st
        = rest.foldl (checkNodeHealth H U) (checkNodeHealth H U st o) := rfl
    obtain ⟨h1, h2⟩ := ih (checkNodeHealth H U st o) (j + 1)
      (fun o' ho' => hall o' (by simp [ho'])) hcf1 hstat1
    rw [hfold]
    constructor
    · rw [h1]; simp; omega
    · rw [h2]
      have : j + 1 + rest.length = j + (rest.length + 1) := by omega
      rw [this]
      simp

/-- On a time-ordered deque, popping expired entries from the left is the
same as keeping exactly the entries inside the window. -/
theorem sorted_dropWhile_eq_filter (c : Int) :
    ∀ (l : List Int), l.Pairwise (· ≤ ·) →
      l.dropWhile (fun t => decide (t < c))
        = l.filter (fun t => decide (c ≤ t)) := by
  intro l
  induction l with
  | nil => intro _; rfl
  | cons a tl ih =>
    intro hp
    obtain ⟨ha, htl⟩ := List.pairwise_cons.mp hp
    by_cases hac : a < c
    · rw [List.dropWhile_cons, if_pos (by simpa using hac),
        List.filter_cons, if_neg (by simpa using not_le.mpr hac)]
      exact ih htl
    · have hca : c ≤ a := not_lt.mp hac
      rw [List.dropWhile_cons, if_neg (by simpa using hac),
        List.filter_cons, if_pos (by simpa using hca)]
      congr 1
      exact (List.filter_eq_self.mpr
        (fun b hb => by simpa using le_trans hca (ha b hb))).symm

/-- Writing a deque into a window map and reading the same key back. -/
theorem lookup_setWindow_self :
    ∀ (m : List (String × List Int)) (k : String) (w : List Int),
      (setWindow m k w).lookup k = some w := by
  intro m
  induction m with
  | nil => intro k w; simp [setWindow, List.lookup]
  | cons kv rest ih =>
    intro k w
    obtain ⟨k', w'⟩ := kv
    by_cases hk : k' = k
    · simp [setWindow, hk, List.lookup]
    · have hk2 : ¬k = k' := fun he => hk he.symm
      simp only [setWindow, if_neg hk, List.lookup, beq_false_of_ne hk2]
      exact ih k w

/-- `getWindow` after `setWindow` at the same key. -/
theorem getWindow_setWindow_self (m : List (String × List Int)) (k : String)
    (w : List Int) : getWindow (setWindow m k w) k = w := by
  simp [getWindow, lookup_setWindow_self]

/-- The quadratic cleanup pass leaves a key's deque intact when that deque
is nonempty and its head is inside the doubled retention window. -/
theorem lookup_cleanMap (cutoff : Int) :
    ∀ (m : List (String × List Int)) (k : String) (w : List Int),
      m.lookup k = some w →
      w.dropWhile (fun t => decide (t < cutoff)) = w → w ≠ [] →
      (cleanWindows m cutoff).lookup k = some w := by
  unfold cleanWindows
  intro m
  induction m with
  | nil => intro k w h _ _; simp [List.lookup] at h
  | cons kv rest ih =>
    intro k w h hdw hne
    obtain ⟨k', w'⟩ := kv
    by_cases hk : k = k'
    · subst hk
      simp only [List.lookup, beq_self_eq_true] at h
      injection h with h
      subst h
      simp only [List.map_cons, hdw, List.filter_cons]
      rw [if_pos (by simpa using hne)]
      simp [List.lookup]
    · simp only [List.lookup, beq_false_of_ne hk] at h
      simp only [List.map_cons, List.filter_cons]
      by_cases hkeep :
          ¬(w'.dropWhile (fun t => decide (t < cutoff))).isEmpty
      · rw [if_pos (by simpa using hkeep)]
        simp only [List.lookup, beq_false_of_ne hk]
        exact ih k w h hdw hne
      · rw [if_neg (by simpa using hkeep)]
        exact ih k w h hdw hne

/-- The periodic cleanup leaves an address deque intact when it is
nonempty and its head is inside the doubled retention window. -/
theorem getWindow_cleanup_ip (st : RateLimiterState) (ct : Int)
    (k : String) (w : List Int)
    (hlk : st.ip_windows.lookup k = some w)
    (hdw : w.dropWhile (fun t => decide (t < ct - 120)) = w)
    (hne : w ≠ []) :
    getWindow (cleanupOldEntries st ct).ip_windows k = w := by
  unfold cleanupOldEntries
  split_ifs with h
  · simp [getWindow, hlk]
  · simp [getWindow, lookup_cleanMap (ct - 120) st.ip_windows k w hlk hdw hne]

/-- The periodic cleanup leaves a device deque intact when it is nonempty
and its head is inside the doubled retention window. -/
theorem getWindow_cleanup_device (st : RateLimiterState) (ct : Int)
    (k : String) (w : List Int)
    (hlk : st.device_windows.lookup k = some w)
    (hdw : w.dropWhile (fun t => decide (t < ct - 120)) = w)
    (hne : w ≠ []) :
    getWindow (cleanupOldEntries st ct).device_windows k = w := by
  unfold cleanupOldEntries
  split_ifs with h
  · simp [getWindow, hlk]
  · simp [getWindow,
      lookup_cleanMap (ct - 120) st.device_windows k w hlk hdw hne]

/-- `_check_window` rejects exactly when the trailing-minute count meets
the per-minute limit or the trailing-ten-second count meets the burst
limit, and it returns the deque evicted to the trailing minute. -/
theorem checkWindow_false_iff (pm bl : Nat) (W : List Int) (now : Int)
    (hs : W.Pairwise (· ≤ ·)) :
    ((checkWindow pm bl W now).1 = false ↔
      pm ≤ (W.filter (fun x => decide (now - 60 ≤ x))).length
      ∨ bl ≤ (W.filter (fun x => decide (now - 10 ≤ x))).length)
    ∧ (checkWindow pm bl W now).2
        = W.filter (fun x => decide (now - 60 ≤ x)) := by
  have hd := sorted_dropWhile_eq_filter (now - 60) W hs
  have hff : (W.filter (fun x => decide (now - 60 ≤ x))).filter
      (fun x => decide (x ≥ now - 10))
      = W.filter (fun x => decide (now - 10 ≤ x)) := by
    rw [List.filter_filter]
    apply List.filter_congr
    intro x _
    by_cases h1 : now - 10 ≤ x <;> by_cases h2 : now - 60 ≤ x <;>
      simp [h1, h2] <;> omega
  constructor
  · simp only [checkWindow, hd]
    split_ifs with hA hB
    · exact iff_of_true rfl (Or.inl hA)
    · refine iff_of_true rfl (Or.inr ?_)
      rwa [hff] at hB
    · refine iff_of_false (by simp) ?_
      rintro (h | h)
      · exact hA h
      · exact hB (by rwa [hff])
  · simp only [checkWindow, hd]
    split_ifs <;> rfl

/-! ## Claim theorems -/

/-- **C1.** `encrypt_chunk` does not bind its output to the recipient
public key: for every plaintext `P`, sequence `s` and any two recipient
keys the results coincide; the returned JSON object has exactly the fields
`encapsulated_key`, `ciphertext`, `aad`, `sequence`; its `aad` field
base64-encodes a byte string that includes `s` (the UTF-8 bytes of the
decimal digits of `s` are a suffix of the decoded AAD); its `sequence`
field equals `s`; and its `ciphertext` field is the base64 encoding of
`P`. -/
theorem c1_encrypt_chunk_ignores_recipient (P : String) (R1 R2 : List Nat)
    (s : Nat) :
    encrypt_chunk P R1 s = encrypt_chunk P R2 s
    ∧ (encrypt_chunk P R1 s).map Prod.fst =
        ["encapsulated_key", "ciphertext", "aad", "sequence"]
    ∧ (encrypt_chunk P R1 s).lookup "aad" =
        some (JVal.jstr (b64encode (utf8Encode ("chunk-" ++ toString s))))
    ∧ List.IsSuffix (utf8Encode (toString s))
        (utf8Encode ("chunk-" ++ toString s))
    ∧ (encrypt_chunk P R1 s).lookup "sequence" = some (JVal.jnum s)
    ∧ (encrypt_chunk P R1 s).lookup "ciphertext" =
        some (JVal.jstr (b64encode (utf8Encode P))) := by
  refine ⟨rfl, rfl, rfl,
    ⟨utf8Encode "chunk-", (utf8Encode_append "chunk-" (toString s)).symm⟩,
    rfl, rfl⟩

/-- **C2.** For every envelope whose replay check succeeds at time `t`,
any second `decrypt_request` call carrying the same request id strictly
within the one-hour retention window after `t` — whatever other ledger
traffic happened in between — is rejected as a replay; and every envelope
whose timestamp is more than `REQUEST_TTL_SECONDS` in the past, or more
than the 30-second clock-skew allowance in the future, is rejected with
the ledger returned unchanged, the verdict being the same for every
ledger (the ledger is neither consulted nor extended). -/
theorem c2_replay_window (jsonParse : List Nat → Option RawPayload)
    (ttlSeconds t : Int) (req : ChatRequest) (L0 L1 : Ledger)
    (haccept : checkReplayProtection ttlSeconds t req L0 = (true, L1))
    (trace : List ReplayCall) (htrace : ∀ c ∈ trace, c.now < t + 3600)
    (req2 : ChatRequest) (hrid : req2.request_id = req.request_id)
    (t2 : Int) (ht2 : t2 < t + 3600) :
    (decrypt_request jsonParse ttlSeconds t2 req2
        (ledgerAfter ttlSeconds L1 trace)).1
      = Except.error DecryptError.replayRejected
    ∧ (∀ (now : Int) (r : ChatRequest) (L : Ledger),
        now - r.timestamp > ttlSeconds →
        decrypt_request jsonParse ttlSeconds now r L
          = (Except.error DecryptError.replayRejected, L))
    ∧ (∀ (now : Int) (r : ChatRequest) (L : Ledger),
        r.timestamp - now > 30 →
        decrypt_request jsonParse ttlSeconds now r L
          = (Except.error DecryptError.replayRejected, L)) := by
  refine ⟨?_, ?_, ?_⟩
  · have hl0 := checkReplay_accept_lookup ttlSeconds t req L0 L1 haccept
    have hl := ledgerAfter_preserves_lookup ttlSeconds req.request_id t trace
      L1 hl0 htrace
    rw [← hrid] at hl
    exact decrypt_request_rejects_known_id jsonParse ttlSeconds t2 req2 _ t hl
  · intro now r L h
    simp [decrypt_request, checkReplayProtection, h]
  · intro now r L h
    by_cases h1 : now - r.timestamp > ttlSeconds
    · simp [decrypt_request, checkReplayProtection, h1]
    · have h2 : now - r.timestamp < -30 := by omega
      simp [decrypt_request, checkReplayProtection, h1, h2]

/-- Witness for C2 at a concrete accepted envelope and immediate retry. -/
theorem c2_replay_window_witness :
    ((decrypt_request (fun _ => none) 60 1 sampleRequest
        (ledgerAfter 60 [("req-1", (0 : Int))] [])).1
      = Except.error DecryptError.replayRejected
    ∧ (∀ (now : Int) (r : ChatRequest) (L : Ledger),
        now - r.timestamp > 60 →
        decrypt_request (fun _ => none) 60 now r L
          = (Except.error DecryptError.replayRejected, L))
    ∧ (∀ (now : Int) (r : ChatRequest) (L : Ledger),
        r.timestamp - now > 30 →
        decrypt_request (fun _ => none) 60 now r L
          = (Except.error DecryptError.replayRejected, L))) :=
  c2_replay_window (fun _ => none) 60 0 sampleRequest [] [("req-1", 0)]
    (by decide) [] (by simp) sampleRequest rfl 1 (by decide)

/-- **C10.** `decrypt_request` records the request id during the replay
check, before base64 decoding, decryption and parsing are attempted, and
does not remove it when those steps fail: after a call that passes the
replay check but fails with `decryptFailed`, the returned ledger still
maps the request id to the acceptance instant, and a retry carrying the
same request id within the retention window is rejected as a replay, not
reported as a fresh decryption failure. -/
theorem c10_failed_decrypt_keeps_ledger_entry
    (jsonParse : List Nat → Option RawPayload) (ttlSeconds t : Int)
    (req : ChatRequest) (L0 L1 : Ledger)
    (haccept : checkReplayProtection ttlSeconds t req L0 = (true, L1))
    (hfail : (decrypt_request jsonParse ttlSeconds t req L0).1
        = Except.error DecryptError.decryptFailed)
    (t2 : Int) (ht2 : t ≤ t2 ∧ t2 < t + 3600) :
    (decrypt_request jsonParse ttlSeconds t req L0).2 = L1
    ∧ L1.lookup req.request_id = some t
    ∧ (decrypt_request jsonParse ttlSeconds t2 req L1).1
        = Except.error DecryptError.replayRejected
    ∧ DecryptError.replayRejected ≠ DecryptError.decryptFailed := by
  have hl := checkReplay_accept_lookup ttlSeconds t req L0 L1 haccept
  refine ⟨?_, hl, ?_, by decide⟩
  · rw [decrypt_request_snd, haccept]
  · exact decrypt_request_rejects_known_id jsonParse ttlSeconds t2 req L1 t hl

/-- Witness for C10: a fresh envelope whose payload fails to parse. -/
theorem c10_failed_decrypt_keeps_ledger_entry_witness :
    ((decrypt_request (fun _ => none) 60 0 sampleRequest []).2 = [("req-1", 0)]
    ∧ (([("req-1", (0 : Int))] : Ledger).lookup "req-1" = some 0)
    ∧ (decrypt_request (fun _ => none) 60 5 sampleRequest
        [("req-1", 0)]).1 = Except.error DecryptError.replayRejected
    ∧ DecryptError.replayRejected ≠ DecryptError.decryptFailed) :=
  c10_failed_decrypt_keeps_ledger_entry (fun _ => none) 60 0 sampleRequest
    [] [("req-1", 0)] (by decide) (by decide) 5 (by decide)

/-- **C5 (counterexample).** The claim says `decrypt_request` clamps
sampling parameters to the operational bounds (temperature ≤ 1.5,
top-p ≤ 0.95, max-tokens ≤ 4096).  A payload with temperature 2, top-p 1
and max-tokens 8192 — all beyond those bounds — comes back unchanged
rather than clamped, and a payload with temperature 3 is rejected as a
decryption failure rather than clamped. -/
theorem c5_out_of_bound_parameters_not_clamped :
    (decrypt_request (fun _ => some overLimitRaw) 60 0 sampleRequest []).1
      = Except.ok
          { messages := overLimitRaw.messages, temperature := 2, top_p := 1,
            max_tokens := 8192, stream := true }
    ∧ ((2 : ℚ) > 3 / 2 ∧ (1 : ℚ) > 19 / 20 ∧ (8192 : Int) > 4096)
    ∧ (decrypt_request (fun _ => some outOfSchemaRaw) 60 0 sampleRequest []).1
      = Except.error DecryptError.decryptFailed := by
  refine ⟨by decide, ⟨?_, ?_, by norm_num⟩, by decide⟩ <;> norm_num

/-- **C5 (amended).** `decrypt_request` parses the decrypted plaintext as
the `DecryptedChatPayload` schema, whose pydantic bounds are
`temperature ∈ [0, 2]`, `top_p ∈ [0, 1]`, `max_tokens ∈ [1, 8192]`:
supplied parameters inside those schema bounds are returned unchanged
(nothing is clamped to 1.5 / 0.95 / 4096), and parameters outside them
make the request fail as an opaque decryption failure instead of being
clamped. -/
theorem c5_schema_validates_and_passes_through
    (jsonParse : List Nat → Option RawPayload) (ttlSeconds now : Int)
    (req : ChatRequest) (L L1 : Ledger) (ct : List Nat)
    (msgs : List ChatMessage) (t p : ℚ) (m : Int) (st : Bool)
    (haccept : checkReplayProtection ttlSeconds now req L = (true, L1))
    (hek : (b64decode req.encapsulated_key).isSome)
    (hct : b64decode req.ciphertext = some ct)
    (haad : (b64decode req.aad).isSome)
    (hparse : jsonParse ct = some
        { messages := msgs, temperature := some t, top_p := some p,
          max_tokens := some m, stream := some st }) :
    ((0 ≤ t ∧ t ≤ 2 ∧ 0 ≤ p ∧ p ≤ 1 ∧ 1 ≤ m ∧ m ≤ 8192) →
      decrypt_request jsonParse ttlSeconds now req L
        = (Except.ok
            { messages := msgs, temperature := t, top_p := p,
              max_tokens := m, stream := st }, L1))
    ∧ (¬(0 ≤ t ∧ t ≤ 2 ∧ 0 ≤ p ∧ p ≤ 1 ∧ 1 ≤ m ∧ m ≤ 8192) →
      decrypt_request jsonParse ttlSeconds now req L
        = (Except.error DecryptError.decryptFailed, L1)) := by
  obtain ⟨ek, hek'⟩ := Option.isSome_iff_exists.mp hek
  obtain ⟨aad, haad'⟩ := Option.isSome_iff_exists.mp haad
  constructor <;> intro hb <;>
    simp [decrypt_request, haccept, hek', hct, haad', hparse,
      validatePayload, hb]

/-- Witness for C5 (amended): in-schema over-limit values pass through;
an out-of-schema temperature is rejected. -/
theorem c5_schema_validates_and_passes_through_witness :
    (((0 : ℚ) ≤ 2 ∧ (2 : ℚ) ≤ 2 ∧ (0 : ℚ) ≤ 1 ∧ (1 : ℚ) ≤ 1
        ∧ (1 : Int) ≤ 8192 ∧ (8192 : Int) ≤ 8192) →
      decrypt_request (fun _ => some overLimitRaw) 60 0 sampleRequest []
        = (Except.ok
            { messages := overLimitRaw.messages, temperature := 2,
              top_p := 1, max_tokens := 8192, stream := true },
           [("req-1", 0)]))
    ∧ (¬((0 : ℚ) ≤ 2 ∧ (2 : ℚ) ≤ 2 ∧ (0 : ℚ) ≤ 1 ∧ (1 : ℚ) ≤ 1
        ∧ (1 : Int) ≤ 8192 ∧ (8192 : Int) ≤ 8192) →
      decrypt_request (fun _ => some overLimitRaw) 60 0 sampleRequest []
        = (Except.error DecryptError.decryptFailed, [("req-1", 0)])) :=
  c5_schema_validates_and_passes_through (fun _ => some overLimitRaw) 60 0
    sampleRequest [] [("req-1", 0)] [0]
    overLimitRaw.messages 2 1 8192 true
    (by decide) (by decide) (by decide) (by decide) rfl

/-- **C3.** The claim says a failed `decrypt_request` is rejected by the
`/api/chat` handler with HTTP 400; the handler's catch-all in fact raises
HTTP 500 "Internal server error".  Evaluated at the repository's own
replay-test input (request id `replay-test-456` submitted a second time
within the window): the response is 500, not 400. -/
theorem c3_replay_rejection_returns_500 :
    chat_endpoint (fun _ => none) 60 0 true true replayedRequest
        [("replay-test-456", 0)] []
      = (HandlerResponse.httpError 500 "Internal server error",
         [("replay-test-456", 0)])
    ∧ (500 : Nat) ≠ 400 := by
  decide

/-- **C4.** The claim says that with `N = 0` tokens the handler still emits
exactly one terminal `end` event carrying sequence 0.  In the source,
`client_pubkey` is assigned only inside the token loop (main.py line 140),
so with zero tokens the terminal-event line raises `UnboundLocalError`,
which the blanket handler turns into an `error` event: the stream is
`[error: Internal server error]`, not `[end: …sequence 0…]`. -/
theorem c4_zero_token_stream_emits_error_not_end :
    event_stream sampleDevicePubkey [] = [("error", "Internal server error")]
    ∧ event_stream sampleDevicePubkey [] ≠
        [("end", jdumps (encrypt_chunk "" [1, 2, 3] 0))] := by
  decide

/-- **C6.** The claim says the handler's log output contains no decrypted
message content, so two requests identical except for their content must
log identically apart from the request id.  In fact main.py line 114 logs
the first 50 characters of the decrypted first message: with the same
request id `req-1`, contents `hello` and `world` produce different
sanitized log records, and the offending record spells the content out. -/
theorem c6_handler_logs_decrypted_content :
    chatHandlerLogs "req-1" "hello" ≠ chatHandlerLogs "req-1" "world"
    ∧ chatHandlerLogs "req-1" "hello" =
        ["Decrypting request req-1",
         "Decrypted payload: hello...",
         "Starting encrypted streaming for request req-1"] := by
  decide

/-- **C8.** With the limiter enabled and the deques time-ordered (as every
real execution keeps them): holding the other identifier's check passing,
an `allow_request` call is rejected exactly when the identifier has at
least `RATE_LIMIT_PER_MINUTE` admitted timestamps in the trailing minute
or at least `RATE_LIMIT_BURST` of them in the trailing ten seconds —
stated once for the client address and once for the device key; on
admission the current timestamp is pushed into both the address deque and
the device deque; on rejection neither deque gains an entry. -/
theorem c8_sliding_window_admission (perMinuteLimit burstLimit : Nat)
    (st : RateLimiterState) (a d : String) (now : Int)
    (hsa : (getWindow st.ip_windows a).Pairwise (· ≤ ·))
    (hsd : (getWindow st.device_windows d).Pairwise (· ≤ ·)) :
    ((checkWindow perMinuteLimit burstLimit
        (getWindow st.device_windows d) now).1 = true →
      ((allow_request true perMinuteLimit burstLimit st a d now).1 = false ↔
        perMinuteLimit ≤ ((getWindow st.ip_windows a).filter
            (fun x => decide (now - 60 ≤ x))).length
        ∨ burstLimit ≤ ((getWindow st.ip_windows a).filter
            (fun x => decide (now - 10 ≤ x))).length))
    ∧ ((checkWindow perMinuteLimit burstLimit
        (getWindow st.ip_windows a) now).1 = true →
      ((allow_request true perMinuteLimit burstLimit st a d now).1 = false ↔
        perMinuteLimit ≤ ((getWindow st.device_windows d).filter
            (fun x => decide (now - 60 ≤ x))).length
        ∨ burstLimit ≤ ((getWindow st.device_windows d).filter
            (fun x => decide (now - 10 ≤ x))).length))
    ∧ ((allow_request true perMinuteLimit burstLimit st a d now).1 = true →
        getWindow
            (allow_request true perMinuteLimit burstLimit st a d now).2.ip_windows
            a
          = (getWindow st.ip_windows a).filter
              (fun x => decide (now - 60 ≤ x)) ++ [now]
        ∧ getWindow
            (allow_request true perMinuteLimit burstLimit st a d
              now).2.device_windows d
          = (getWindow st.device_windows d).filter
              (fun x => decide (now - 60 ≤ x)) ++ [now])
    ∧ ((allow_request true perMinuteLimit burstLimit st a d now).1 = false →
        (∀ x ∈ getWindow
            (allow_request true perMinuteLimit burstLimit st a d now).2.ip_windows
            a, x ∈ getWindow st.ip_windows a)
        ∧ (∀ x ∈ getWindow
            (allow_request true perMinuteLimit burstLimit st a d
              now).2.device_windows d, x ∈ getWindow st.device_windows d)) := by
  obtain ⟨hAiff, hA2⟩ := checkWindow_false_iff perMinuteLimit burstLimit
    (getWindow st.ip_windows a) now hsa
  obtain ⟨hDiff, hD2⟩ := checkWindow_false_iff perMinuteLimit burstLimit
    (getWindow st.device_windows d) now hsd
  cases hokA : (checkWindow perMinuteLimit burstLimit
      (getWindow st.ip_windows a) now).1
  · -- address check fails: rejected before the device deque is touched
    have heval : allow_request true perMinuteLimit burstLimit st a d now
        = (false,
           { st with
              total_requests := st.total_requests + 1,
              ip_windows := setWindow st.ip_windows a
                (checkWindow perMinuteLimit burstLimit
                  (getWindow st.ip_windows a) now).2,
              blocked_requests := st.blocked_requests + 1 }) := by
      simp [allow_request, hokA]
    refine ⟨?_, ?_, ?_, ?_⟩
    · intro _
      exact iff_of_true (by rw [heval]) (hAiff.mp hokA)
    · intro hap
      exact absurd hap (by simp)
    · intro hadm
      rw [heval] at hadm
      exact absurd hadm (by simp)
    · intro _
      rw [heval]
      constructor
      · intro x hx
        rw [getWindow_setWindow_self, hA2] at hx
        exact (List.mem_filter.mp hx).1
      · intro x hx
        exact hx
  cases hokD : (checkWindow perMinuteLimit burstLimit
      (getWindow st.device_windows d) now).1
  · -- device check fails after the address deque was evicted in place
    have heval : allow_request true perMinuteLimit burstLimit st a d now
        = (false,
           { st with
              total_requests := st.total_requests + 1,
              ip_windows := setWindow st.ip_windows a
                (checkWindow perMinuteLimit burstLimit
                  (getWindow st.ip_windows a) now).2,
              device_windows := setWindow st.device_windows d
                (checkWindow perMinuteLimit burstLimit
                  (getWindow st.device_windows d) now).2,
              blocked_requests := st.blocked_requests + 1 }) := by
      simp [allow_request, hokA, hokD]
    refine ⟨?_, ?_, ?_, ?_⟩
    · intro hdp
      exact absurd hdp (by simp)
    · intro _
      exact iff_of_true (by rw [heval]) (hDiff.mp hokD)
    · intro hadm
      rw [heval] at hadm
      exact absurd hadm (by simp)
    · intro _
      rw [heval]
      constructor
      · intro x hx
        rw [getWindow_setWindow_self, hA2] at hx
        exact (List.mem_filter.mp hx).1
      · intro x hx
        rw [getWindow_setWindow_self, hD2] at hx
        exact (List.mem_filter.mp hx).1
  · -- both checks pass: admitted, timestamps pushed, cleanup may run
    have heval : allow_request true perMinuteLimit burstLimit st a d now
        = (true, cleanupOldEntries
           { st with
              total_requests := st.total_requests + 1,
              ip_windows := setWindow
                (setWindow st.ip_windows a
                  (checkWindow perMinuteLimit burstLimit
                    (getWindow st.ip_windows a) now).2) a
                ((checkWindow perMinuteLimit burstLimit
                    (getWindow st.ip_windows a) now).2 ++ [now]),
              device_windows := setWindow
                (setWindow st.device_windows d
                  (checkWindow perMinuteLimit burstLimit
                    (getWindow st.device_windows d) now).2) d
                ((checkWindow perMinuteLimit burstLimit
                    (getWindow st.device_windows d) now).2 ++ [now]) } now) := by
      simp [allow_request, hokA, hokD]
    have hWAdrop : ((checkWindow perMinuteLimit burstLimit
        (getWindow st.ip_windows a) now).2 ++ [now]).dropWhile
          (fun t => decide (t < now - 120))
        = (checkWindow perMinuteLimit burstLimit
            (getWindow st.ip_windows a) now).2 ++ [now] := by
      rw [hA2]
      cases hWA : (getWindow st.ip_windows a).filter
          (fun x => decide (now - 60 ≤ x)) with
      | nil =>
        rw [List.nil_append, List.dropWhile_cons, if_neg (by simp)]
      | cons y t =>
        have hy : now - 60 ≤ y := by
          have : y ∈ (getWindow st.ip_windows a).filter
              (fun x => decide (now - 60 ≤ x)) := by rw [hWA]; simp
          simpa using (List.mem_filter.mp this).2
        rw [List.cons_append, List.dropWhile_cons,
          if_neg (by simp; omega)]
    have hWDdrop : ((checkWindow perMinuteLimit burstLimit
        (getWindow st.device_windows d) now).2 ++ [now]).dropWhile
          (fun t => decide (t < now - 120))
        = (checkWindow perMinuteLimit burstLimit
            (getWindow st.device_windows d) now).2 ++ [now] := by
      rw [hD2]
      cases hWD : (getWindow st.device_windows d).filter
          (fun x => decide (now - 60 ≤ x)) with
      | nil =>
        rw [List.nil_append, List.dropWhile_cons, if_neg (by simp)]
      | cons y t =>
        have hy : now - 60 ≤ y := by
          have : y ∈ (getWindow st.device_windows d).filter
              (fun x => decide (now - 60 ≤ x)) := by rw [hWD]; simp
          simpa using (List.mem_filter.mp this).2
        rw [List.cons_append, List.dropWhile_cons,
          if_neg (by simp; omega)]
    refine ⟨?_, ?_, ?_, ?_⟩
    · intro _
      refine iff_of_false (by rw [heval]; simp) ?_
      intro hc
      have := hAiff.mpr hc
      rw [hokA] at this
      exact absurd this (by simp)
    · intro _
      refine iff_of_false (by rw [heval]; simp) ?_
      intro hc
      have := hDiff.mpr hc
      rw [hokD] at this
      exact absurd this (by simp)
    · intro _
      rw [heval]
      constructor
      · rw [getWindow_cleanup_ip _ now a
          ((checkWindow perMinuteLimit burstLimit
            (getWindow st.ip_windows a) now).2 ++ [now])
          (lookup_setWindow_self _ a _) hWAdrop (by simp), hA2]
      · rw [getWindow_cleanup_device _ now d
          ((checkWindow perMinuteLimit burstLimit
            (getWindow st.device_windows d) now).2 ++ [now])
          (lookup_setWindow_self _ d _) hWDdrop (by simp), hD2]
    · intro hrej
      rw [heval] at hrej
      exact absurd hrej (by simp)

/-- Witness for C8: limits 60 per minute / 30 burst, one prior admit at
instant 0, a call at instant 5. -/
theorem c8_sliding_window_admission_witness :
    ((checkWindow 60 30
        (getWindow sampleLimiter.device_windows "device-key-1") 5).1 = true →
      ((allow_request true 60 30 sampleLimiter "203.0.113.7" "device-key-1"
          5).1 = false ↔
        60 ≤ ((getWindow sampleLimiter.ip_windows "203.0.113.7").filter
            (fun x => decide ((5 : Int) - 60 ≤ x))).length
        ∨ 30 ≤ ((getWindow sampleLimiter.ip_windows "203.0.113.7").filter
            (fun x => decide ((5 : Int) - 10 ≤ x))).length))
    ∧ ((checkWindow 60 30
        (getWindow sampleLimiter.ip_windows "203.0.113.7") 5).1 = true →
      ((allow_request true 60 30 sampleLimiter "203.0.113.7" "device-key-1"
          5).1 = false ↔
        60 ≤ ((getWindow sampleLimiter.device_windows "device-key-1").filter
            (fun x => decide ((5 : Int) - 60 ≤ x))).length
        ∨ 30 ≤ ((getWindow sampleLimiter.device_windows "device-key-1").filter
            (fun x => decide ((5 : Int) - 10 ≤ x))).length))
    ∧ ((allow_request true 60 30 sampleLimiter "203.0.113.7" "device-key-1"
          5).1 = true →
        getWindow (allow_request true 60 30 sampleLimiter "203.0.113.7"
            "device-key-1" 5).2.ip_windows "203.0.113.7"
          = (getWindow sampleLimiter.ip_windows "203.0.113.7").filter
              (fun x => decide ((5 : Int) - 60 ≤ x)) ++ [5]
        ∧ getWindow (allow_request true 60 30 sampleLimiter "203.0.113.7"
            "device-key-1" 5).2.device_windows "device-key-1"
          = (getWindow sampleLimiter.device_windows "device-key-1").filter
              (fun x => decide ((5 : Int) - 60 ≤ x)) ++ [5])
    ∧ ((allow_request true 60 30 sampleLimiter "203.0.113.7" "device-key-1"
          5).1 = false →
        (∀ x ∈ getWindow (allow_request true 60 30 sampleLimiter "203.0.113.7"
            "device-key-1" 5).2.ip_windows "203.0.113.7",
          x ∈ getWindow sampleLimiter.ip_windows "203.0.113.7")
        ∧ (∀ x ∈ getWindow (allow_request true 60 30 sampleLimiter
            "203.0.113.7" "device-key-1" 5).2.device_windows "device-key-1",
          x ∈ getWindow sampleLimiter.device_windows "device-key-1")) :=
  c8_sliding_window_admission 60 30 sampleLimiter "203.0.113.7"
    "device-key-1" 5 (by decide) (by decide)

/-- **C9.** A probe returning HTTP 200 increments the record's
consecutive successes and clears its consecutive failures; any other
outcome (exception, timeout, non-200) increments consecutive failures and
clears successes.  A record not already Unhealthy, starting a fresh
failure run, keeps its status through the first `U - 1` consecutive
failures, moves to Unhealthy exactly on the `U`-th, and stays Unhealthy
while failures continue; symmetrically, a record not already Healthy
moves to Healthy exactly on the `H`-th consecutive success. -/
theorem c9_health_thresholds (H U : Nat) (hH : 1 ≤ H) (hU : 1 ≤ U)
    (node : NodeHealth) (os : List ProbeOutcome)
    (hfail : ∀ o ∈ os, outcomeIsHealthy o = false)
    (hnu : node.status ≠ NodeStatus.unhealthy)
    (hcf : node.consecutive_failures = 0)
    (node2 : NodeHealth) (os2 : List ProbeOutcome)
    (hok : ∀ o ∈ os2, outcomeIsHealthy o = true)
    (hnh : node2.status ≠ NodeStatus.healthy)
    (hcs : node2.consecutive_successes = 0) :
    (∀ n : NodeHealth,
        (checkNodeHealth H U n ProbeOutcome.ok200).consecutive_successes
          = n.consecutive_successes + 1
        ∧ (checkNodeHealth H U n ProbeOutcome.ok200).consecutive_failures = 0)
    ∧ (∀ (n : NodeHealth) (o : ProbeOutcome), outcomeIsHealthy o = false →
        (checkNodeHealth H U n o).consecutive_failures
          = n.consecutive_failures + 1
        ∧ (checkNodeHealth H U n o).consecutive_successes = 0)
    ∧ ((os.foldl (checkNodeHealth H U) node).consecutive_failures = os.length
      ∧ (os.foldl (checkNodeHealth H U) node).status
          = (if os.length < U then node.status else NodeStatus.unhealthy))
    ∧ ((os2.foldl (checkNodeHealth H U) node2).consecutive_successes
          = os2.length
      ∧ (os2.foldl (checkNodeHealth H U) node2).status
          = (if os2.length < H then node2.status else NodeStatus.healthy)) := by
  refine ⟨?_, ?_, ?_, ?_⟩
  · intro n
    constructor <;>
      · simp only [checkNodeHealth, outcomeIsHealthy, if_true]
        split <;> simp
  · intro n o ho
    constructor <;>
      · simp only [checkNodeHealth, ho, Bool.false_eq_true, if_false]
        split <;> simp
  · have h := foldProbeFailures H U node.status hnu os node 0 hfail hcf
      (by rw [if_pos (by omega)])
    simpa using h
  · have h := foldProbeSuccesses H U node2.status hnh os2 node2 0 hok hcs
      (by rw [if_pos (by omega)])
    simpa using h

/-- Witness for C9 at the configured thresholds `H = 2`, `U = 3`, a fresh
Unknown record, three failing probes and two succeeding probes. -/
theorem c9_health_thresholds_witness :
    ((∀ n : NodeHealth,
        (checkNodeHealth 2 3 n ProbeOutcome.ok200).consecutive_successes
          = n.consecutive_successes + 1
        ∧ (checkNodeHealth 2 3 n ProbeOutcome.ok200).consecutive_failures = 0)
    ∧ (∀ (n : NodeHealth) (o : ProbeOutcome), outcomeIsHealthy o = false →
        (checkNodeHealth 2 3 n o).consecutive_failures
          = n.consecutive_failures + 1
        ∧ (checkNodeHealth 2 3 n o).consecutive_successes = 0)
    ∧ ((([ProbeOutcome.non200, ProbeOutcome.timeout,
          ProbeOutcome.exc]).foldl (checkNodeHealth 2 3)
            freshNode).consecutive_failures = 3
      ∧ (([ProbeOutcome.non200, ProbeOutcome.timeout,
          ProbeOutcome.exc]).foldl (checkNodeHealth 2 3) freshNode).status
          = (if 3 < 3 then freshNode.status else NodeStatus.unhealthy))
    ∧ ((([ProbeOutcome.ok200, ProbeOutcome.ok200]).foldl
            (checkNodeHealth 2 3) freshNode).consecutive_successes = 2
      ∧ (([ProbeOutcome.ok200, ProbeOutcome.ok200]).foldl
            (checkNodeHealth 2 3) freshNode).status
          = (if 2 < 2 then freshNode.status else NodeStatus.healthy))) :=
  c9_health_thresholds 2 3 (by decide) (by decide) freshNode
    [ProbeOutcome.non200, ProbeOutcome.timeout, ProbeOutcome.exc]
    (by decide) (by decide) rfl freshNode
    [ProbeOutcome.ok200, ProbeOutcome.ok200] (by decide) (by decide) rfl

/-- **C7 (amended).** After at least `threshold` consecutive
`record_failure` calls starting in Closed, the breaker is Open with the
last-failure instant at the final failure; while Open,
`can_make_request` returns false until `reset_seconds` have elapsed since
the last failure, and once they have it returns true, the first such call
moving the breaker to Half-Open; while Half-Open, every
`can_make_request` returns true (not just one); three `record_success`
calls in Half-Open return the breaker to Closed; and a `record_failure`
in Half-Open returns it to Open and restarts the reset timer from that
failure's instant. -/
theorem c7_breaker_recovery (threshold : Nat) (resetSeconds : Int)
    (ts : List Int) (cb cbO cbH : CircuitBreaker) (now tf : Int)
    (hth : 1 ≤ threshold)
    (hen : cb.enabled = true) (hst : cb.state = CircuitBreakerState.closed)
    (hfc : cb.failure_count = 0) (hlen : threshold ≤ ts.length)
    (hne : ts ≠ [])
    (henO : cbO.enabled = true)
    (hstO : cbO.state = CircuitBreakerState.opened)
    (hlfO : cbO.last_failure_time = some tf)
    (henH : cbH.enabled = true)
    (hstH : cbH.state = CircuitBreakerState.halfOpen)
    (hscH : cbH.success_count = 0) :
    ((ts.foldl (record_failure threshold) cb).state
        = CircuitBreakerState.opened
      ∧ (ts.foldl (record_failure threshold) cb).last_failure_time
          = ts.getLast?)
    ∧ (now - tf < resetSeconds →
        (can_make_request resetSeconds cbO now).1 = false
        ∧ (can_make_request resetSeconds cbO now).2.state
            = CircuitBreakerState.opened
        ∧ (can_make_request resetSeconds cbO now).2.last_failure_time
            = some tf)
    ∧ (resetSeconds ≤ now - tf →
        (can_make_request resetSeconds cbO now).1 = true
        ∧ (can_make_request resetSeconds cbO now).2.state
            = CircuitBreakerState.halfOpen)
    ∧ ((can_make_request resetSeconds cbH now).1 = true
        ∧ (can_make_request resetSeconds cbH now).2.state
            = CircuitBreakerState.halfOpen)
    ∧ (record_success (record_success (record_success cbH))).state
        = CircuitBreakerState.closed
    ∧ ((record_failure threshold cbH now).state
          = CircuitBreakerState.opened
        ∧ (record_failure threshold cbH now).last_failure_time = some now) := by
  refine ⟨?_, ?_, ?_, ?_, ?_, ?_⟩
  · obtain ⟨h1, h2⟩ := foldFailures_from_closed threshold hth ts cb hen hst
      (by omega) hne
    refine ⟨h1, ?_⟩
    rw [h2]
    obtain ⟨x, hx⟩ := Option.isSome_iff_exists.mp
      (List.getLast?_isSome.mpr hne)
    rw [hx]
    rfl
  · intro hlt
    have hcond : ¬(now - tf ≥ resetSeconds) := by omega
    simp [can_make_request, henO, hstO, hlfO, hcond]
  · intro hge
    have hcond : now - tf ≥ resetSeconds := by omega
    simp [can_make_request, henO, hstO, hlfO, hcond, transitionToHalfOpen]
  · simp [can_make_request, henH, hstH]
  · have e1 : record_success cbH = { cbH with success_count := 1 } := by
      simp [record_success, henH, hstH, hscH]
    have e2 : record_success { cbH with success_count := 1 }
        = { cbH with success_count := 2 } := by
      simp [record_success, henH, hstH]
    have e3 : record_success { cbH with success_count := 2 }
        = transitionToClosed { cbH with success_count := 3 } := by
      simp [record_success, henH, hstH]
    rw [e1, e2, e3]
    simp [transitionToClosed, hstH]
  · simp [record_failure, henH, hstH, transitionToOpen]

/-- Witness for C7 (amended) at threshold 1, reset 1 s, one failure at
t = 0, probes at t = 0. -/
theorem c7_breaker_recovery_witness :
    ((([(0 : Int)]).foldl (record_failure 1) freshBreaker).state
        = CircuitBreakerState.opened
      ∧ (([(0 : Int)]).foldl (record_failure 1) freshBreaker).last_failure_time
          = ([(0 : Int)]).getLast?)
    ∧ ((0 : Int) - 0 < 1 →
        (can_make_request 1 openBreaker 0).1 = false
        ∧ (can_make_request 1 openBreaker 0).2.state
            = CircuitBreakerState.opened
        ∧ (can_make_request 1 openBreaker 0).2.last_failure_time
            = some 0)
    ∧ ((1 : Int) ≤ 0 - 0 →
        (can_make_request 1 openBreaker 0).1 = true
        ∧ (can_make_request 1 openBreaker 0).2.state
            = CircuitBreakerState.halfOpen)
    ∧ ((can_make_request 1 halfOpenBreaker 0).1 = true
        ∧ (can_make_request 1 halfOpenBreaker 0).2.state
            = CircuitBreakerState.halfOpen)
    ∧ (record_success (record_success (record_success halfOpenBreaker))).state
        = CircuitBreakerState.closed
    ∧ ((record_failure 1 halfOpenBreaker 0).state
          = CircuitBreakerState.opened
        ∧ (record_failure 1 halfOpenBreaker 0).last_failure_time = some 0) :=
  c7_breaker_recovery 1 1 [0] freshBreaker openBreaker halfOpenBreaker 0 0
    (by decide) rfl rfl rfl (by decide) (by decide) rfl rfl rfl rfl rfl rfl

/-- **C7 (counterexample).** The claim says that once `reset_seconds` have
elapsed after the trip, `can_make_request` "returns true exactly once".
With threshold 1 and reset 1 second: one failure at t=0 opens the
breaker, and at t=1 two consecutive `can_make_request` calls — with no
recorded outcome in between — both return true, the breaker sitting in
Half-Open for both. -/
theorem c7_half_open_admits_repeatedly :
    (can_make_request 1 (record_failure 1 freshBreaker 0) 1).1 = true
    ∧ (can_make_request 1
        (can_make_request 1 (record_failure 1 freshBreaker 0) 1).2 1).1 = true
    ∧ (can_make_request 1 (record_failure 1 freshBreaker 0) 1).2.state =
        CircuitBreakerState.halfOpen
    ∧ (can_make_request 1
        (can_make_request 1 (record_failure 1 freshBreaker 0) 1).2 1).2.state =
        CircuitBreakerState.halfOpen := by
  decide

end Geist
